import Mathlib

/-!
Verification of the registry / reconciliation subsystem of the
`local-persist` Docker volume driver (`driver.go`).

The Go code keeps an in-memory `map[string]string` from volume names to
mountpoints, persists it as a JSON snapshot `{"state": {...}}` in
`<stateDir>/<driverName>.json`, and reconciles startup state from the
Docker daemon (live source) with a fallback to the snapshot file.

Shallow embedding conventions:
  * Go `map[string]string` is an association list `VolMap` with Go map
    semantics: lookup of an absent key yields the zero value `""`,
    assignment replaces the binding if present and adds it otherwise,
    `delete` removes the binding.
  * The JSON byte level is abstracted to a `Json` value tree; the state
    file holds a `Json` value.  `json.Marshal` of a Go map sorts its keys,
    which we model by sorting the association list; `json.Unmarshal` into
    `map[string]string` is modelled field by field.
  * Filesystem and daemon failures are supplied as explicit environment
    values (`CreateEnv`, `DaemonEnv`, a `writeOk` flag).
  * `fmt` printing is ignored except where an error string is returned to
    the caller; `cyan` models the ANSI colouring applied by
    `color.New(color.FgCyan).SprintfFunc()` when colour is enabled.
-/

/-- Association-list model of a Go `map[string]string`. -/
abbrev VolMap := List (String × String)

/-- Go map read `m[k]`: first binding of `k`, or the zero value `""`. -/
def mapGet : VolMap → String → String
  | [], _ => ""
  | p :: rest, k => if p.1 = k then p.2 else mapGet rest k

/-- Go map assignment `m[k] = v`: replace the binding if present, else add it. -/
def mapInsert : VolMap → String → String → VolMap
  | [], k, v => [(k, v)]
  | p :: rest, k, v => if p.1 = k then (k, v) :: rest else p :: mapInsert rest k v

/-- Go `delete(m, k)`: drop the binding of `k`. -/
def mapDelete : VolMap → String → VolMap
  | [], _ => []
  | p :: rest, k => if p.1 = k then mapDelete rest k else p :: mapDelete rest k

/-- JSON value tree (the byte level of `encoding/json` is abstracted away). -/
inductive Json where
  | null : Json
  | str : String → Json
  | obj : List (String × Json) → Json

/-- The state directory: file path → JSON document stored there. -/
abbrev FSState := List (String × Json)

/-- Read a file from the modelled state directory (`ioutil.ReadFile`):
`none` is the "no such file or directory" error case. -/
def fsRead : FSState → String → Option Json
  | [], _ => none
  | p :: rest, k => if p.1 = k then some p.2 else fsRead rest k

/-- Write a file, fully overwriting prior contents (`ioutil.WriteFile`). -/
def fsWrite : FSState → String → Json → FSState
  | [], k, v => [(k, v)]
  | p :: rest, k, v => if p.1 = k then (k, v) :: rest else p :: fsWrite rest k v

/-! ### Go `path.Clean` / `path.Join`

`path.Join` concatenates its non-empty arguments with `/` and applies
`path.Clean`.  `Clean` is modelled by the standard equivalent component
algorithm: split on `/`, drop empty and `.` components, resolve `..`
against a stack, and re-assemble (absolute paths drop leading `..`). -/

/-- Split a character list at every `'/'` (the separators are consumed;
empty components are kept, so the result is always non-empty). -/
def splitSlash : List Char → List (List Char)
  | [] => [[]]
  | c :: rest =>
    match splitSlash rest with
    | g :: gs => if c = '/' then [] :: g :: gs else (c :: g) :: gs
    | [] => [[]]

/-- Process path components against a stack (held in reverse order),
resolving `.` and `..` the way Go `path.Clean` does. -/
def cleanLoop (rooted : Bool) (stack : List String) : List String → List String
  | [] => stack
  | c :: rest =>
    if c = "." then cleanLoop rooted stack rest
    else if c = ".." then
      match stack with
      | [] => cleanLoop rooted (if rooted then [] else [".."]) rest
      | t :: st =>
        if t = ".." then cleanLoop rooted (".." :: t :: st) rest
        else cleanLoop rooted st rest
    else cleanLoop rooted (c :: stack) rest

/-- `path.Clean` on a non-empty character list with first character `c`. -/
def goCleanCore (c : Char) (rest : List Char) : String :=
  let rooted := c = '/'
  let comps := ((splitSlash (c :: rest)).filter (fun g => g ≠ [])).map (fun g => String.mk g)
  let stack := cleanLoop rooted [] comps
  let body := String.intercalate "/" stack.reverse
  if rooted then "/" ++ body
  else if body = "" then "." else body

/-- Go `path.Clean`. -/
def goClean (s : String) : String :=
  match s.data with
  | [] => "."
  | c :: rest => goCleanCore c rest

/-- Go `path.Join(a, b)` for two arguments. -/
def goJoin2 (a b : String) : String :=
  if a = "" ∧ b = "" then ""
  else if a = "" then goClean b
  else goClean (a ++ "/" ++ b)

/-! ### The driver data model (`localPersistDriver`, `saveData`) -/

/-- `localPersistDriver` (the mutex is treated in the event-trace model
below; `debug` only controls printing). -/
structure LocalPersistDriver where
  volumes : VolMap
  name : String
  baseDir : String
  stateDir : String
deriving DecidableEq

/-- `volume.Volume` as returned to the caller (`Name`, `Mountpoint`). -/
structure GoVolume where
  name : String
  mountpoint : String
deriving DecidableEq

/-- `volume.Request`: a volume name plus an options map. -/
structure Request where
  name : String
  options : VolMap := []
deriving DecidableEq

/-- `volume.Response` (the fields the driver uses). -/
structure GoResponse where
  mountpoint : String := ""
  err : String := ""
  volume : Option GoVolume := none
  volumes : List GoVolume := []
deriving DecidableEq

/-- ANSI cyan colouring `cyan(s)` (colour enabled). -/
def cyan (s : String) : String := "\x1b[36m" ++ s ++ "\x1b[0m"

/-- `driver.exists(name)`: the stored mountpoint is non-empty (an absent
key reads as `""`, so absence and an empty-string binding coincide). -/
def LocalPersistDriver.exists (d : LocalPersistDriver) (name : String) : Bool :=
  mapGet d.volumes name ≠ ""

/-- `driver.volume(name)`. -/
def LocalPersistDriver.volume (d : LocalPersistDriver) (name : String) : GoVolume :=
  { name := name, mountpoint := mapGet d.volumes name }

/-- `driver.Get`: found volumes are returned in `Volume`; otherwise an
error message is returned. -/
def LocalPersistDriver.Get (d : LocalPersistDriver) (req : Request) : GoResponse :=
  if d.exists req.name then { volume := some (d.volume req.name) }
  else { err := "No volume found with the name " ++ cyan req.name }

/-- `driver.List`: one `Volume` per binding of the map. -/
def LocalPersistDriver.list (d : LocalPersistDriver) (_req : Request) : GoResponse :=
  { volumes := d.volumes.map (fun p => d.volume p.1) }

/-- `driver.Path` (also the body of `Mount` and `Unmount`):
`path.Join(driver.baseDir, driver.volumes[req.Name])`, never an error. -/
def LocalPersistDriver.Path (d : LocalPersistDriver) (req : Request) : GoResponse :=
  { mountpoint := goJoin2 d.baseDir (mapGet d.volumes req.name) }

/-- `driver.Mount` delegates to `Path`. -/
def LocalPersistDriver.Mount (d : LocalPersistDriver) (req : Request) : GoResponse :=
  d.Path req

/-- `driver.Unmount` delegates to `Path`. -/
def LocalPersistDriver.Unmount (d : LocalPersistDriver) (req : Request) : GoResponse :=
  d.Path req

/-! ### Persistence (`saveData`, `saveState`, `findExistingVolumesFromStateFile`) -/

/-- Insertion into a key-sorted association list (stable). -/
def insertByKey (x : String × String) : VolMap → VolMap
  | [] => [x]
  | y :: ys => if x.1 < y.1 then x :: y :: ys else y :: insertByKey x ys

/-- Sort an association list by key: `json.Marshal` serializes Go map
keys in sorted order. -/
def sortByKey (l : VolMap) : VolMap := l.foldr insertByKey []

/-- `json.Marshal(saveData{State: volumes})`: the document
`{"state": {...}}` with the map's keys sorted. -/
def marshalSaveData (volumes : VolMap) : Json :=
  Json.obj [("state", Json.obj ((sortByKey volumes).map (fun p => (p.1, Json.str p.2))))]

/-- Decode a JSON object into a Go `map[string]string`, later duplicate
keys overwriting earlier ones; any non-string value is an unmarshal error. -/
def parseStringMapAux (acc : VolMap) : List (String × Json) → Except String VolMap
  | [] => .ok acc
  | (k, Json.str v) :: rest => parseStringMapAux (mapInsert acc k v) rest
  | _ => .error "json: cannot unmarshal value into field of type string"

/-- Decode the value of the `"state"` field (`null` leaves the zero value). -/
def unmarshalStateVal : Json → Except String VolMap
  | Json.obj fields => parseStringMapAux [] fields
  | Json.null => .ok []
  | _ => .error "json: cannot unmarshal value into field of type map"

/-- `json.Unmarshal(fileData, &data)` for `data : saveData`: the top
level must be an object (or `null`); unknown fields are ignored; a
missing `"state"` field leaves `State` as the nil map. -/
def unmarshalSaveData : Json → Except String VolMap
  | Json.obj fields =>
      fields.foldlM (fun st kv => if kv.1 = "state" then unmarshalStateVal kv.2 else .ok st) []
  | Json.null => .ok []
  | _ => .error "json: cannot unmarshal value into saveData"

/-- The per-driver state file path
`path.Join(driver.stateDir, driver.name + ".json")`. -/
def LocalPersistDriver.statePath (d : LocalPersistDriver) : String :=
  goJoin2 d.stateDir (d.name ++ ".json")

/-- `driver.findExistingVolumesFromStateFile`: read and decode the state
file; any failure is returned alongside an empty map. -/
def LocalPersistDriver.findExistingVolumesFromStateFile
    (d : LocalPersistDriver) (fs : FSState) : Option String × VolMap :=
  match fsRead fs d.statePath with
  | none => (some ("open " ++ d.statePath ++ ": no such file or directory"), [])
  | some fileData =>
    match unmarshalSaveData fileData with
    | .error e => (some e, [])
    | .ok st => (none, st)

/-- `driver.saveState(volumes)`: marshal `{"state": volumes}` and write
the per-driver file; `writeOk` is the outcome of `ioutil.WriteFile`. -/
def LocalPersistDriver.saveState (d : LocalPersistDriver) (volumes : VolMap)
    (fs : FSState) (writeOk : Bool) : Option String × FSState :=
  let fileData := marshalSaveData volumes
  if writeOk then (none, fsWrite fs d.statePath fileData)
  else (some "write error", fs)

/-! ### Mutating operations (`Create`, `Remove`) -/

/-- Environment outcomes for one `Create` call: the result of
`os.MkdirAll(realMountpoint, 0755)` and of the snapshot write. -/
structure CreateEnv where
  mkdirErr : Option String := none
  writeOk : Bool := true
deriving DecidableEq

/-- Result of a mutating call: the response, the driver and filesystem
state afterwards, and whether `saveState` was invoked. -/
structure OpOutcome where
  resp : GoResponse
  driver : LocalPersistDriver
  fs : FSState
  saveRequested : Bool

/-- `driver.Create`: require a non-empty `mountpoint` option, reject an
existing name, ensure the directory, insert the binding, then persist
(a snapshot-write failure is only printed, never returned). -/
def LocalPersistDriver.Create (d : LocalPersistDriver) (fs : FSState)
    (env : CreateEnv) (req : Request) : OpOutcome :=
  let mountpoint := mapGet req.options "mountpoint"
  if mountpoint = "" then
    { resp := { err := "The `mountpoint` option is required" },
      driver := d, fs := fs, saveRequested := false }
  else
    -- realMountpoint := path.Join(driver.baseDir, mountpoint); mutex acquired here
    if d.exists req.name then
      { resp := { err := "The volume " ++ req.name ++ " already exists" },
        driver := d, fs := fs, saveRequested := false }
    else
      match env.mkdirErr with
      | some e => { resp := { err := e }, driver := d, fs := fs, saveRequested := false }
      | none =>
        let d' : LocalPersistDriver := { d with volumes := mapInsert d.volumes req.name mountpoint }
        let r := d'.saveState d'.volumes fs env.writeOk
        -- a `saveState` error is printed and dropped
        { resp := {}, driver := d', fs := r.2, saveRequested := true }

/-- `driver.Remove`: unconditionally delete the binding and persist;
always returns the empty (success) response. -/
def LocalPersistDriver.Remove (d : LocalPersistDriver) (fs : FSState)
    (writeOk : Bool) (req : Request) : OpOutcome :=
  let d' : LocalPersistDriver := { d with volumes := mapDelete d.volumes req.name }
  let r := d'.saveState d'.volumes fs writeOk
  { resp := {}, driver := d', fs := r.2, saveRequested := true }

/-! ### Startup reconciliation (`findExistingVolumesFromDockerDaemon`,
`newLocalPersistDriver`) -/

/-- One mount observation reported by the daemon (`info.Mounts` entry). -/
structure DaemonMount where
  driver : String
  name : String
  source : String
deriving DecidableEq

/-- One container, carrying its mounts. -/
structure Container where
  mounts : List DaemonMount
deriving DecidableEq

/-- Outcomes of the daemon interaction for one reconciliation run:
`client.NewClient` error, `cli.ContainerList` error, and the containers
returned (empty when the list call failed). -/
structure DaemonEnv where
  clientErr : Option String := none
  listErr : Option String := none
  containers : List Container := []
deriving DecidableEq

/-- The inner loop over one container's mounts: record every mount whose
driver matches, later observations overwriting earlier ones. -/
def addMounts (drv : String) (vols : VolMap) : List DaemonMount → VolMap
  | [] => vols
  | m :: rest =>
      addMounts drv (if m.driver = drv then mapInsert vols m.name m.source else vols) rest

/-- The outer loop over all containers. -/
def collectVolumesAux (drv : String) (vols : VolMap) : List Container → VolMap
  | [] => vols
  | c :: rest => collectVolumesAux drv (addMounts drv vols c.mounts) rest

/-- The name→source map observed from the daemon for this driver. -/
def collectVolumes (drv : String) (cs : List Container) : VolMap :=
  collectVolumesAux drv [] cs

/-- `driver.findExistingVolumesFromDockerDaemon`: a `client.NewClient`
failure returns the error with an empty map; otherwise the observed
volumes are collected, and if the container-list call failed or nothing
was observed the state file is consulted instead. -/
def LocalPersistDriver.findExistingVolumesFromDockerDaemon
    (d : LocalPersistDriver) (env : DaemonEnv) (fs : FSState) : Option String × VolMap :=
  match env.clientErr with
  | some e => (some e, [])
  | none =>
    let volumes := collectVolumes d.name env.containers
    if env.listErr.isSome ∨ volumes = [] then
      d.findExistingVolumesFromStateFile fs
    else (none, volumes)

/-- `newLocalPersistDriver`: the constructor seeds the registry from the
state file only (the error from the load is discarded). -/
def newLocalPersistDriver (name baseDir stateDir : String) (fs : FSState) :
    LocalPersistDriver :=
  let d : LocalPersistDriver :=
    { volumes := [], name := name, baseDir := baseDir, stateDir := stateDir }
  { d with volumes := (d.findExistingVolumesFromStateFile fs).2 }

/-! ### Locking discipline (event traces)

Each driver method is abstracted to the sequence of mutex and shared-state
events its body performs, read off the Go source.  `mapRead`/`mapWrite`
are accesses to `driver.volumes`; `fileWrite` is the snapshot write inside
`saveState`. -/

/-- Mutex and shared-state events. -/
inductive RegEvent where
  | lock : RegEvent
  | unlock : RegEvent
  | mapRead : RegEvent
  | mapWrite : RegEvent
  | fileWrite : RegEvent
deriving DecidableEq

/-- The driver's public operations. -/
inductive RegOp where
  | get : RegOp
  | list : RegOp
  | create : RegOp
  | remove : RegOp
  | mount : RegOp
  | path : RegOp
  | unmount : RegOp
deriving DecidableEq

/-- Event trace of each operation, on its main (successful) path:
  * `Get`: `exists` then `volume`, both reading the map, no mutex use;
  * `List`: ranging over the map and reading each mountpoint, no mutex use;
  * `Create`: `mutex.Lock()`, `exists` read, map assignment, `saveState`
    write, deferred `Unlock()` (the mountpoint-option check precedes the
    lock but touches only the request);
  * `Remove`: `mutex.Lock()`, `delete`, `saveState` write, deferred
    `Unlock()`;
  * `Mount`/`Path`/`Unmount`: one unguarded read of the map. -/
def opEvents : RegOp → List RegEvent
  | .get => [.mapRead, .mapRead]
  | .list => [.mapRead, .mapRead]
  | .create => [.lock, .mapRead, .mapWrite, .fileWrite, .unlock]
  | .remove => [.lock, .mapWrite, .fileWrite, .unlock]
  | .mount => [.mapRead]
  | .path => [.mapRead]
  | .unmount => [.mapRead]

/-- Scan a trace with the current lock depth: `true` iff every map access
and snapshot write happens while the mutex is held. -/
def lockedDuring : List RegEvent → Nat → Bool
  | [], _ => true
  | .lock :: rest, depth => lockedDuring rest (depth + 1)
  | .unlock :: rest, depth => lockedDuring rest (depth - 1)
  | .mapRead :: rest, depth => depth > 0 && lockedDuring rest depth
  | .mapWrite :: rest, depth => depth > 0 && lockedDuring rest depth
  | .fileWrite :: rest, depth => depth > 0 && lockedDuring rest depth

/-- An operation respects the locking discipline when all of its shared
accesses happen under the mutex. -/
def mapGuarded (tr : List RegEvent) : Bool := lockedDuring tr 0

/-! ### Specification-side auxiliary definitions -/

/-- Fold a list of bindings into an accumulator map (the effect of Go's
decode loop writing each field into the map). -/
def insertAll (acc : VolMap) : VolMap → VolMap
  | [] => acc
  | p :: rest => insertAll (mapInsert acc p.1 p.2) rest

/-- The source path of the last observation in the list matching this
driver and name, if any (specification of last-observation-wins). -/
def lastMatch (drv n : String) : List DaemonMount → Option String
  | [] => none
  | m :: rest =>
    match lastMatch drv n rest with
    | some s => some s
    | none => if m.driver = drv ∧ m.name = n then some m.source else none

/-- The reconciliation precedence as amended from the spec's words:
a failed client construction yields the empty map with the error; a
failed list query or an empty observation set falls back to the state
file; otherwise the live observations win. -/
def reconcileSpec (clientErr listErr : Option String) (live : VolMap)
    (snap : Option String × VolMap) : Option String × VolMap :=
  match clientErr with
  | some e => (some e, [])
  | none => if listErr.isSome ∨ live = [] then snap else (none, live)

/-- A concrete driver instance used by witnesses and counterexamples. -/
def sampleDriver (vols : VolMap) : LocalPersistDriver :=
  { volumes := vols, name := "local-persist", baseDir := "/mnt/base",
    stateDir := "/var/lib/docker-plugin" }

/-! ## Lemmas about the association-map model -/

theorem mapGet_insert_self (m : VolMap) (k v : String) :
    mapGet (mapInsert m k v) k = v := by
  induction m with
  | nil => simp [mapInsert, mapGet]
  | cons p rest ih =>
    by_cases h : p.1 = k
    · simp [mapInsert, h, mapGet]
    · simp [mapInsert, h, mapGet, ih]

theorem mapGet_insert_ne (m : VolMap) (k v k' : String) (h : k' ≠ k) :
    mapGet (mapInsert m k v) k' = mapGet m k' := by
  have hk : k ≠ k' := fun he => h he.symm
  induction m with
  | nil => simp [mapInsert, mapGet, hk]
  | cons p rest ih =>
    obtain ⟨a, b⟩ := p
    by_cases hp : a = k
    · subst hp
      simp [mapInsert, mapGet, hk]
    · by_cases hp' : a = k'
      · simp [mapInsert, hp, mapGet, hp', h]
      · simp [mapInsert, hp, mapGet, hp', ih]

theorem mapGet_delete_self (m : VolMap) (k : String) :
    mapGet (mapDelete m k) k = "" := by
  induction m with
  | nil => simp [mapDelete, mapGet]
  | cons p rest ih =>
    by_cases h : p.1 = k
    · simp [mapDelete, h, ih]
    · simp [mapDelete, h, mapGet, ih]

theorem mapGet_delete_ne (m : VolMap) (k k' : String) (h : k' ≠ k) :
    mapGet (mapDelete m k) k' = mapGet m k' := by
  have hk : k ≠ k' := fun he => h he.symm
  induction m with
  | nil => simp [mapDelete]
  | cons p rest ih =>
    obtain ⟨a, b⟩ := p
    by_cases hp : a = k
    · subst hp
      simp [mapDelete, mapGet, hk, ih]
    · by_cases hp' : a = k'
      · simp [mapDelete, hp, mapGet, hp', h]
      · simp [mapDelete, hp, mapGet, hp', ih]

theorem mapDelete_of_absent (m : VolMap) (k : String)
    (h : ∀ p ∈ m, p.1 ≠ k) : mapDelete m k = m := by
  induction m with
  | nil => rfl
  | cons p rest ih =>
    have hp : p.1 ≠ k := h p (List.mem_cons_self p rest)
    simp [mapDelete, hp]
    exact ih (fun q hq => h q (List.mem_cons_of_mem p hq))

theorem fsRead_fsWrite_self (fs : FSState) (k : String) (v : Json) :
    fsRead (fsWrite fs k v) k = some v := by
  induction fs with
  | nil => simp [fsWrite, fsRead]
  | cons p rest ih =>
    by_cases h : p.1 = k
    · simp [fsWrite, h, fsRead]
    · simp [fsWrite, h, fsRead, ih]

/-! ## Lemmas about `path.Clean` / `path.Join` -/

theorem splitSlash_ne_nil (l : List Char) : splitSlash l ≠ [] := by
  cases l with
  | nil => simp [splitSlash]
  | cons c rest =>
    simp only [splitSlash]
    cases h : splitSlash rest with
    | nil => simp
    | cons g gs => by_cases hc : c = '/' <;> simp [hc]

theorem splitSlash_append_slash (l : List Char) :
    splitSlash (l ++ ['/']) = splitSlash l ++ [[]] := by
  induction l with
  | nil => rfl
  | cons c rest ih =>
    cases h : splitSlash rest with
    | nil => exact absurd h (splitSlash_ne_nil rest)
    | cons g gs =>
      simp only [List.cons_append, splitSlash, List.append_eq]
      rw [ih, h]
      by_cases hc : c = '/' <;> simp [hc]

theorem goCleanCore_append_slash (c : Char) (rest : List Char) :
    goCleanCore c (rest ++ ['/']) = goCleanCore c rest := by
  have h : splitSlash (c :: (rest ++ ['/'])) = splitSlash (c :: rest) ++ [[]] := by
    simpa using splitSlash_append_slash (c :: rest)
  simp only [goCleanCore, h, List.filter_append]
  simp

theorem goClean_append_slash (s : String) (h : s ≠ "") :
    goClean (s ++ "/") = goClean s := by
  cases hs : s.data with
  | nil =>
    exact absurd (String.ext (hs.trans rfl)) h
  | cons c rest =>
    have hd : (s ++ "/").data = c :: (rest ++ ['/']) := by
      rw [String.data_append, hs]; rfl
    simp only [goClean, hd, hs]
    exact goCleanCore_append_slash c rest

theorem goJoin2_empty_right (b : String) (h : goClean b = b) :
    goJoin2 b "" = b := by
  have hb : b ≠ "" := by
    intro he
    rw [he] at h
    exact absurd h (by decide)
  have hbe : b ++ "/" ++ "" = b ++ "/" := String.append_empty (b ++ "/")
  simp only [goJoin2, hb, hbe]
  simp only [hb, false_and, if_false, if_neg hb]
  rw [goClean_append_slash b hb, h]

/-! ## Lemmas about sorting and decoding -/

theorem insertByKey_perm (x : String × String) (l : VolMap) :
    (insertByKey x l).Perm (x :: l) := by
  induction l with
  | nil => simp [insertByKey]
  | cons y ys ih =>
    by_cases h : x.1 < y.1
    · simp [insertByKey, h]
    · simp only [insertByKey, if_neg h]
      exact (ih.cons y).trans (List.Perm.swap x y ys)

theorem sortByKey_perm (l : VolMap) : (sortByKey l).Perm l := by
  induction l with
  | nil => simp [sortByKey]
  | cons x xs ih =>
    simp only [sortByKey, List.foldr_cons]
    exact (insertByKey_perm x _).trans (ih.cons x)

theorem mapGet_perm {l l' : VolMap} (h : l.Perm l') :
    (l.map Prod.fst).Nodup → ∀ k, mapGet l k = mapGet l' k := by
  induction h with
  | nil => intro _ k; rfl
  | cons x h ih =>
    intro hnd k
    have h2 := hnd
    simp only [List.map_cons, List.nodup_cons] at h2
    by_cases hx : x.1 = k
    · simp [mapGet, hx]
    · simp [mapGet, hx, ih h2.2 k]
  | swap x y l =>
    intro hnd k
    have h2 := hnd
    simp only [List.map_cons, List.nodup_cons, List.mem_cons] at h2
    have h1 : y.1 ≠ x.1 := fun he => h2.1 (Or.inl he)
    by_cases hx : x.1 = k <;> by_cases hy : y.1 = k
    · exact absurd (hy.trans hx.symm) h1
    · simp [mapGet, hx, hy]
    · simp [mapGet, hx, hy]
    · simp [mapGet, hx, hy]
  | trans h12 h23 ih1 ih2 =>
    intro hnd k
    have hnd2 := ((h12.map Prod.fst).nodup_iff).mp hnd
    exact (ih1 hnd k).trans (ih2 hnd2 k)

theorem mapInsert_of_absent (m : VolMap) (k v : String) (h : ∀ p ∈ m, p.1 ≠ k) :
    mapInsert m k v = m ++ [(k, v)] := by
  induction m with
  | nil => rfl
  | cons p rest ih =>
    have hp : p.1 ≠ k := h p (List.mem_cons_self p rest)
    simp [mapInsert, hp, ih (fun q hq => h q (List.mem_cons_of_mem p hq))]

theorem insertAll_eq_append (l : VolMap) :
    ∀ acc : VolMap, (∀ p ∈ l, ∀ q ∈ acc, p.1 ≠ q.1) → (l.map Prod.fst).Nodup →
      insertAll acc l = acc ++ l := by
  induction l with
  | nil => intro acc _ _; simp [insertAll]
  | cons p rest ih =>
    intro acc hdisj hnd
    have hnd' : (rest.map Prod.fst).Nodup := by
      simp only [List.map_cons, List.nodup_cons] at hnd
      exact hnd.2
    have hpn : p.1 ∉ rest.map Prod.fst := by
      simp only [List.map_cons, List.nodup_cons] at hnd
      exact hnd.1
    have habs : ∀ q ∈ acc, q.1 ≠ p.1 :=
      fun q hq => (hdisj p (List.mem_cons_self p rest) q hq).symm
    have hdisj' : ∀ x ∈ rest, ∀ q ∈ acc ++ [(p.1, p.2)], x.1 ≠ q.1 := by
      intro x hx q hq
      rcases List.mem_append.mp hq with hq | hq
      · exact hdisj x (List.mem_cons_of_mem p hx) q hq
      · have hqe : q = (p.1, p.2) := by simpa using hq
        subst hqe
        intro he
        exact hpn (by rw [← he]; exact List.mem_map_of_mem Prod.fst hx)
    calc insertAll acc (p :: rest)
        = insertAll (acc ++ [(p.1, p.2)]) rest := by
          simp only [insertAll, mapInsert_of_absent acc p.1 p.2 habs]
      _ = (acc ++ [(p.1, p.2)]) ++ rest := ih _ hdisj' hnd'
      _ = acc ++ p :: rest := by simp

theorem parseStringMapAux_strs (l : VolMap) :
    ∀ acc : VolMap,
      parseStringMapAux acc (l.map (fun p => (p.1, Json.str p.2))) = .ok (insertAll acc l) := by
  induction l with
  | nil => intro acc; rfl
  | cons p rest ih =>
    intro acc
    simpa [parseStringMapAux, insertAll] using ih (mapInsert acc p.1 p.2)

theorem unmarshal_marshal (S : VolMap) :
    unmarshalSaveData (marshalSaveData S) = .ok (insertAll [] (sortByKey S)) := by
  simp [marshalSaveData, unmarshalSaveData, unmarshalStateVal, List.foldlM,
    parseStringMapAux_strs]

/-! ## Lemmas about the daemon observation fold -/

theorem addMounts_get (drv n : String) (ms : List DaemonMount) :
    ∀ vols : VolMap,
      mapGet (addMounts drv vols ms) n = (lastMatch drv n ms).getD (mapGet vols n) := by
  induction ms with
  | nil => intro vols; rfl
  | cons m rest ih =>
    intro vols
    simp only [addMounts]
    rw [ih]
    cases hlm : lastMatch drv n rest with
    | some s => simp [lastMatch, hlm]
    | none =>
      by_cases hd : m.driver = drv
      · by_cases hn : m.name = n
        · simp [lastMatch, hlm, hd, hn, mapGet_insert_self]
        · have hne : n ≠ m.name := fun he => hn he.symm
          simp [lastMatch, hlm, hd, hn, mapGet_insert_ne _ _ _ _ hne]
      · simp [lastMatch, hlm, hd]

theorem lastMatch_append_match (drv n : String) (l : List DaemonMount) (m : DaemonMount)
    (hd : m.driver = drv) (hn : m.name = n) :
    lastMatch drv n (l ++ [m]) = some m.source := by
  induction l with
  | nil => simp [lastMatch, hd, hn]
  | cons x rest ih => simp [lastMatch, ih]

/-! ## Claims -/

/-- C1 counterexample: when `client.NewClient` fails, the reconciler
returns the empty map together with the error and does **not** fall back
to the state file, even though the snapshot is present and non-empty —
refuting "otherwise (query failed or yielded an empty set) the initial
state is the snapshot loaded from the state file" on this failure path. -/
theorem reconcile_clientError_skips_snapshot_fallback :
    ((sampleDriver []).findExistingVolumesFromDockerDaemon
        { clientErr := some "cannot connect to the Docker daemon" }
        [((sampleDriver []).statePath, marshalSaveData [("B", "p2")])]).2 = [] ∧
    ((sampleDriver []).findExistingVolumesFromStateFile
        [((sampleDriver []).statePath, marshalSaveData [("B", "p2")])]).2 = [("B", "p2")] ∧
    ([] : VolMap) ≠ [("B", "p2")] := by
  decide

/-- C1 (amended): one run of the startup reconciler behaves as follows:
if the daemon client cannot be constructed, the result is the empty map
with that error (no snapshot fallback); otherwise, if the container-list
query succeeded and the observed name→path set is non-empty, that set is
the result; otherwise (list query failed, or empty set) the result is the
state-file load; and whenever the state-file load fails its map is empty. -/
theorem reconcile_precedence (d : LocalPersistDriver) (env : DaemonEnv) (fs : FSState) :
    d.findExistingVolumesFromDockerDaemon env fs =
      reconcileSpec env.clientErr env.listErr (collectVolumes d.name env.containers)
        (d.findExistingVolumesFromStateFile fs) ∧
    ((d.findExistingVolumesFromStateFile fs).1.isSome →
      (d.findExistingVolumesFromStateFile fs).2 = []) := by
  constructor
  · obtain ⟨ce, le, cs⟩ := env
    cases ce <;>
      simp [LocalPersistDriver.findExistingVolumesFromDockerDaemon, reconcileSpec]
  · intro h
    simp only [LocalPersistDriver.findExistingVolumesFromStateFile] at h ⊢
    cases hr : fsRead fs d.statePath with
    | none => simp [hr]
    | some j =>
      cases hu : unmarshalSaveData j with
      | error e => simp [hr, hu]
      | ok st => simp [hr, hu] at h

/-- C1 witness: the amended reconciliation theorem at a concrete driver,
environment and (empty, hence failing-to-load) state directory. -/
theorem reconcile_precedence_witness :
    (sampleDriver []).findExistingVolumesFromDockerDaemon {} [] =
      reconcileSpec none none (collectVolumes "local-persist" [])
        ((sampleDriver []).findExistingVolumesFromStateFile []) ∧
    ((sampleDriver []).findExistingVolumesFromStateFile []).2 = [] :=
  ⟨(reconcile_precedence (sampleDriver []) {} []).1,
   (reconcile_precedence (sampleDriver []) {} []).2 (by decide)⟩

/-- C2 counterexample: with the volume already registered, a second
`Create` whose options do not supply a mountpoint fails with the
missing-option error, not with "already exists" — refuting "a second
Create of the same `name` with any options fails with AlreadyExists". -/
theorem create_duplicate_without_mountpoint_option :
    (sampleDriver [("vol1", "data/vol1")]).exists "vol1" = true ∧
    ((sampleDriver [("vol1", "data/vol1")]).Create [] {} { name := "vol1" }).resp.err =
      "The `mountpoint` option is required" ∧
    ((sampleDriver [("vol1", "data/vol1")]).Create [] {} { name := "vol1" }).resp.err ≠
      "The volume vol1 already exists" := by
  decide

/-- C2 (amended): when `name` already exists, a second `Create` with
options supplying a non-empty mountpoint fails with AlreadyExists, and a
second `Create` without one fails with MissingRequiredOption; in both
cases nothing is mutated: driver and filesystem state are unchanged, no
snapshot write is requested, and a subsequent `Get` still yields the
first call's mountpoint. -/
theorem create_duplicate_rejected (d : LocalPersistDriver) (fs : FSState) (env : CreateEnv)
    (req : Request) (hex : d.exists req.name = true) :
    (mapGet req.options "mountpoint" ≠ "" →
      (d.Create fs env req).resp.err = "The volume " ++ req.name ++ " already exists") ∧
    (mapGet req.options "mountpoint" = "" →
      (d.Create fs env req).resp.err = "The `mountpoint` option is required") ∧
    (d.Create fs env req).driver = d ∧
    (d.Create fs env req).fs = fs ∧
    (d.Create fs env req).saveRequested = false ∧
    mapGet (d.Create fs env req).driver.volumes req.name = mapGet d.volumes req.name ∧
    ((d.Create fs env req).driver.Get { name := req.name }).volume =
      some { name := req.name, mountpoint := mapGet d.volumes req.name } := by
  have hGet : (d.Get { name := req.name }).volume =
      some { name := req.name, mountpoint := mapGet d.volumes req.name } := by
    simp [LocalPersistDriver.Get, hex, LocalPersistDriver.volume]
  by_cases hm : mapGet req.options "mountpoint" = ""
  · refine ⟨fun h => absurd hm h, fun _ => ?_, ?_, ?_, ?_, ?_, ?_⟩ <;>
      simp [LocalPersistDriver.Create, hm, hGet]
  · refine ⟨fun _ => ?_, fun h => absurd h hm, ?_, ?_, ?_, ?_, ?_⟩ <;>
      simp [LocalPersistDriver.Create, hm, hex, hGet]

/-- C2 witness: the amended theorem at a concrete registered volume and
a second request carrying a different mountpoint. -/
theorem create_duplicate_rejected_witness :
    ((sampleDriver [("vol1", "data/vol1")]).Create [] {}
        { name := "vol1", options := [("mountpoint", "other/dir")] }).resp.err =
      "The volume vol1 already exists" ∧
    ((sampleDriver [("vol1", "data/vol1")]).Create [] {}
        { name := "vol1", options := [("mountpoint", "other/dir")] }).driver =
      sampleDriver [("vol1", "data/vol1")] :=
  ⟨(create_duplicate_rejected (sampleDriver [("vol1", "data/vol1")]) [] {}
      { name := "vol1", options := [("mountpoint", "other/dir")] } (by decide)).1 (by decide),
   (create_duplicate_rejected (sampleDriver [("vol1", "data/vol1")]) [] {}
      { name := "vol1", options := [("mountpoint", "other/dir")] } (by decide)).2.2.1⟩

/-- C3: a `Create` whose options have no `mountpoint` key (or bind it to
the empty string) fails with the missing-option error and changes
nothing: driver and filesystem are unchanged and no snapshot write is
requested; if the name was unregistered before, `Get` still reports
not-found afterwards. -/
theorem create_missing_mountpoint (d : LocalPersistDriver) (fs : FSState) (env : CreateEnv)
    (req : Request) (hm : mapGet req.options "mountpoint" = "") :
    (d.Create fs env req).resp.err = "The `mountpoint` option is required" ∧
    (d.Create fs env req).driver = d ∧
    (d.Create fs env req).fs = fs ∧
    (d.Create fs env req).saveRequested = false ∧
    (mapGet d.volumes req.name = "" →
      ((d.Create fs env req).driver.Get { name := req.name }).volume = none ∧
      ((d.Create fs env req).driver.Get { name := req.name }).err =
        "No volume found with the name " ++ cyan req.name) := by
  refine ⟨?_, ?_, ?_, ?_, ?_⟩ <;>
    simp [LocalPersistDriver.Create, hm, LocalPersistDriver.Get, LocalPersistDriver.exists]
  intro h
  simp [h]

/-- C3 witness: `Create("vol2", {})` on an empty registry fails with the
missing-option error and `Get("vol2")` remains not-found. -/
theorem create_missing_mountpoint_witness :
    ((sampleDriver []).Create [] {} { name := "vol2" }).resp.err =
      "The `mountpoint` option is required" ∧
    (((sampleDriver []).Create [] {} { name := "vol2" }).driver.Get
        { name := "vol2" }).volume = none :=
  ⟨(create_missing_mountpoint (sampleDriver []) [] {} { name := "vol2" } (by decide)).1,
   ((create_missing_mountpoint (sampleDriver []) [] {} { name := "vol2" } (by decide)).2.2.2.2
      (by decide)).1⟩

/-- C4: `Remove` always returns success, for any name and any snapshot
write outcome; it removes exactly the given key (other keys keep their
values), requests a snapshot flush, and when the name is absent from the
map the map is left unchanged (idempotent no-op). -/
theorem remove_always_succeeds (d : LocalPersistDriver) (fs : FSState) (writeOk : Bool)
    (req : Request) :
    (d.Remove fs writeOk req).resp.err = "" ∧
    (d.Remove fs writeOk req).saveRequested = true ∧
    (d.Remove fs writeOk req).driver.volumes = mapDelete d.volumes req.name ∧
    mapGet (d.Remove fs writeOk req).driver.volumes req.name = "" ∧
    (∀ k, k ≠ req.name → mapGet (d.Remove fs writeOk req).driver.volumes k = mapGet d.volumes k) ∧
    ((∀ p ∈ d.volumes, p.1 ≠ req.name) → (d.Remove fs writeOk req).driver.volumes = d.volumes) := by
  refine ⟨rfl, rfl, rfl, ?_, ?_, ?_⟩
  · exact mapGet_delete_self d.volumes req.name
  · intro k hk
    exact mapGet_delete_ne d.volumes req.name k hk
  · intro h
    exact mapDelete_of_absent d.volumes req.name h

/-- C4 witness: removing an absent name succeeds and leaves the map
unchanged. -/
theorem remove_always_succeeds_witness :
    ((sampleDriver [("vol1", "data/vol1")]).Remove [] true { name := "volX" }).resp.err = "" ∧
    ((sampleDriver [("vol1", "data/vol1")]).Remove [] true { name := "volX" }).driver.volumes =
      [("vol1", "data/vol1")] :=
  ⟨(remove_always_succeeds (sampleDriver [("vol1", "data/vol1")]) [] true { name := "volX" }).1,
   (remove_always_succeeds (sampleDriver [("vol1", "data/vol1")]) [] true
      { name := "volX" }).2.2.2.2.2 (by decide)⟩

/-- C5: `Path` (the body of `Mount` and `Unmount`) returns
`path.Join(baseDir, volumes[name])` with no error — where an unknown
name reads the zero value `""` — and never touches the driver state (it
is a pure function of the driver in this embedding); when the name is
unknown and `baseDir` is a clean path, the result is exactly `baseDir`. -/
theorem path_resolution (d : LocalPersistDriver) (req : Request) :
    d.Path req = { mountpoint := goJoin2 d.baseDir (mapGet d.volumes req.name) } ∧
    (d.Path req).err = "" ∧
    d.Mount req = d.Path req ∧
    d.Unmount req = d.Path req ∧
    (mapGet d.volumes req.name = "" → goClean d.baseDir = d.baseDir →
      (d.Path req).mountpoint = d.baseDir) := by
  refine ⟨rfl, rfl, rfl, rfl, ?_⟩
  intro h hc
  simp only [LocalPersistDriver.Path, h]
  exact goJoin2_empty_right d.baseDir hc

/-- C5 witness: resolving an unknown name over the clean base directory
`/mnt/base` yields exactly `/mnt/base`. -/
theorem path_resolution_witness :
    ((sampleDriver []).Path { name := "vol1" }).mountpoint = "/mnt/base" ∧
    (sampleDriver []).Mount { name := "vol1" } = (sampleDriver []).Path { name := "vol1" } :=
  ⟨(path_resolution (sampleDriver []) { name := "vol1" }).2.2.2.2 (by decide) (by decide),
   (path_resolution (sampleDriver []) { name := "vol1" }).2.2.1⟩

/-- C6: snapshot round-trip — for any mapping `S` (unique keys, the
empty map included), `saveState S` succeeds and a subsequent
`findExistingVolumesFromStateFile` succeeds and returns a map equal to
`S`: every lookup agrees and the key multiset is the same (the file
stores the keys sorted, which permutes but never alters the mapping). -/
theorem snapshot_roundtrip (d : LocalPersistDriver) (fs : FSState) (S : VolMap)
    (hnd : (S.map Prod.fst).Nodup) :
    (d.saveState S fs true).1 = none ∧
    (d.findExistingVolumesFromStateFile (d.saveState S fs true).2).1 = none ∧
    (∀ k, mapGet (d.findExistingVolumesFromStateFile (d.saveState S fs true).2).2 k = mapGet S k) ∧
    ((d.findExistingVolumesFromStateFile (d.saveState S fs true).2).2.map Prod.fst).Perm
      (S.map Prod.fst) := by
  have hread : fsRead (d.saveState S fs true).2 d.statePath = some (marshalSaveData S) := by
    simpa [LocalPersistDriver.saveState] using
      fsRead_fsWrite_self fs d.statePath (marshalSaveData S)
  have hperm : (sortByKey S).Perm S := sortByKey_perm S
  have hndS : ((sortByKey S).map Prod.fst).Nodup := ((hperm.map Prod.fst).nodup_iff).mpr hnd
  have hins : insertAll [] (sortByKey S) = sortByKey S := by
    simpa using insertAll_eq_append (sortByKey S) [] (by simp) hndS
  have hload : d.findExistingVolumesFromStateFile (d.saveState S fs true).2 =
      (none, sortByKey S) := by
    simp [LocalPersistDriver.findExistingVolumesFromStateFile, hread, unmarshal_marshal, hins]
  refine ⟨rfl, ?_, ?_, ?_⟩
  · rw [hload]
  · intro k
    rw [hload]
    exact mapGet_perm hperm hndS k
  · rw [hload]
    exact hperm.map Prod.fst

/-- C6 witness: the round trip at a concrete two-entry map. -/
theorem snapshot_roundtrip_witness :
    ((sampleDriver []).findExistingVolumesFromStateFile
        ((sampleDriver []).saveState [("b", "p2"), ("a", "p1")] [] true).2).1 = none ∧
    mapGet ((sampleDriver []).findExistingVolumesFromStateFile
        ((sampleDriver []).saveState [("b", "p2"), ("a", "p1")] [] true).2).2 "b" = "p2" :=
  ⟨(snapshot_roundtrip (sampleDriver []) [] [("b", "p2"), ("a", "p1")] (by decide)).2.1,
   (snapshot_roundtrip (sampleDriver []) [] [("b", "p2"), ("a", "p1")] (by decide)).2.2.1 "b"⟩

/-- C7: when the snapshot write fails, `Create` (with a valid mountpoint,
a fresh name and a successful directory creation) still returns success
and the inserted binding is kept; `Remove` likewise still returns success
and the name stays deleted; in both cases the filesystem is unchanged. -/
theorem snapshot_write_failure_tolerated (d : LocalPersistDriver) (fs : FSState) (req : Request)
    (hm : mapGet req.options "mountpoint" ≠ "") (hex : d.exists req.name = false) :
    ((d.Create fs { mkdirErr := none, writeOk := false } req).resp.err = "" ∧
     mapGet (d.Create fs { mkdirErr := none, writeOk := false } req).driver.volumes req.name =
       mapGet req.options "mountpoint" ∧
     (d.Create fs { mkdirErr := none, writeOk := false } req).fs = fs) ∧
    ((d.Remove fs false req).resp.err = "" ∧
     mapGet (d.Remove fs false req).driver.volumes req.name = "" ∧
     (d.Remove fs false req).fs = fs) := by
  constructor
  · refine ⟨?_, ?_, ?_⟩ <;>
      simp [LocalPersistDriver.Create, hm, hex, LocalPersistDriver.saveState, mapGet_insert_self]
  · exact ⟨rfl, mapGet_delete_self d.volumes req.name, rfl⟩

/-- C7 witness: a failed flush during `Create("vol1", ...)` on an empty
registry still registers the volume, and a failed flush during `Remove`
still leaves it absent. -/
theorem snapshot_write_failure_tolerated_witness :
    ((sampleDriver []).Create [] { mkdirErr := none, writeOk := false }
        { name := "vol1", options := [("mountpoint", "data/vol1")] }).resp.err = "" ∧
    mapGet ((sampleDriver []).Create [] { mkdirErr := none, writeOk := false }
        { name := "vol1", options := [("mountpoint", "data/vol1")] }).driver.volumes "vol1" =
      mapGet [("mountpoint", "data/vol1")] "mountpoint" :=
  ⟨((snapshot_write_failure_tolerated (sampleDriver []) []
      { name := "vol1", options := [("mountpoint", "data/vol1")] }
      (by decide) (by decide)).1).1,
   ((snapshot_write_failure_tolerated (sampleDriver []) []
      { name := "vol1", options := [("mountpoint", "data/vol1")] }
      (by decide) (by decide)).1).2.1⟩

/-- C8: last-observation-wins — when the daemon reports the same volume
name twice with differing source paths, the reconciled observation map
binds that name to the source path of the later observation in the
sequence. -/
theorem last_observation_wins (drv n : String) (pre mid : List DaemonMount)
    (m1 m2 : DaemonMount)
    (h1d : m1.driver = drv) (h1n : m1.name = n)
    (h2d : m2.driver = drv) (h2n : m2.name = n)
    (hdiff : m1.source ≠ m2.source) :
    mapGet (collectVolumes drv [{ mounts := pre ++ [m1] ++ mid ++ [m2] }]) n = m2.source := by
  have hc : collectVolumes drv [{ mounts := pre ++ [m1] ++ mid ++ [m2] }] =
      addMounts drv [] (pre ++ [m1] ++ mid ++ [m2]) := rfl
  rw [hc, addMounts_get]
  rw [lastMatch_append_match drv n (pre ++ [m1] ++ mid) m2 h2d h2n]
  rfl

/-- C8 witness: two matching observations of `n`, with sources `/p1`
then `/p2`, reconcile to `/p2`. -/
theorem last_observation_wins_witness :
    mapGet (collectVolumes "local-persist"
        [{ mounts := [] ++ [{ driver := "local-persist", name := "n", source := "/p1" }] ++ [] ++
            [{ driver := "local-persist", name := "n", source := "/p2" }] }]) "n" = "/p2" :=
  last_observation_wins "local-persist" "n" [] []
    { driver := "local-persist", name := "n", source := "/p1" }
    { driver := "local-persist", name := "n", source := "/p2" }
    rfl rfl rfl rfl (by decide)

/-- C9 counterexample: `Path` (the Resolve entry point, also used by
`Mount`/`Unmount`) reads the volumes map but its trace acquires no lock —
refuting "every Registry operation that can observe or mutate the map
acquires the single mutual-exclusion lock before touching the map". -/
theorem resolve_reads_map_unlocked :
    mapGuarded (opEvents RegOp.path) = false ∧
    RegEvent.mapRead ∈ opEvents RegOp.path := by
  decide

/-- C9 (amended): exactly `Create` and `Remove` perform all their map
accesses (and the snapshot write) under the mutex; the read operations
`Get`, `List`, `Mount`, `Path` and `Unmount` access the map without
acquiring the lock. -/
theorem locking_discipline_partial (op : RegOp) :
    mapGuarded (opEvents op) = (op == RegOp.create || op == RegOp.remove) := by
  cases op <;> rfl

/-- C10: the existence test is "stored mountpoint is non-empty", not key
membership — if a name is bound to the empty string (or absent), `exists`
is false, `Get` reports not-found, and a `Create` for that name with a
valid mountpoint succeeds, binding the name to the new mountpoint while
every other key keeps its value. -/
theorem empty_mountpoint_not_exists (d : LocalPersistDriver) (fs : FSState) (req : Request)
    (h0 : mapGet d.volumes req.name = "")
    (hm : mapGet req.options "mountpoint" ≠ "") :
    d.exists req.name = false ∧
    (d.Get { name := req.name }).volume = none ∧
    (d.Get { name := req.name }).err = "No volume found with the name " ++ cyan req.name ∧
    (d.Create fs { mkdirErr := none, writeOk := true } req).resp.err = "" ∧
    mapGet (d.Create fs { mkdirErr := none, writeOk := true } req).driver.volumes req.name =
      mapGet req.options "mountpoint" ∧
    (∀ k, k ≠ req.name →
      mapGet (d.Create fs { mkdirErr := none, writeOk := true } req).driver.volumes k =
        mapGet d.volumes k) := by
  have hex : d.exists req.name = false := by
    simp [LocalPersistDriver.exists, h0]
  refine ⟨hex, ?_, ?_, ?_, ?_, ?_⟩
  · simp [LocalPersistDriver.Get, hex]
  · simp [LocalPersistDriver.Get, hex]
  · simp [LocalPersistDriver.Create, hm, hex]
  · simp [LocalPersistDriver.Create, hm, hex, mapGet_insert_self]
  · intro k hk
    simp [LocalPersistDriver.Create, hm, hex, mapGet_insert_ne d.volumes req.name _ k hk]

/-- C10 witness: with `a` bound to the empty string, `Get` reports
not-found and `Create` succeeds, overwriting the binding. -/
theorem empty_mountpoint_not_exists_witness :
    (sampleDriver [("a", "")]).exists "a" = false ∧
    mapGet ((sampleDriver [("a", "")]).Create [] { mkdirErr := none, writeOk := true }
        { name := "a", options := [("mountpoint", "data/a")] }).driver.volumes "a" =
      mapGet [("mountpoint", "data/a")] "mountpoint" :=
  ⟨(empty_mountpoint_not_exists (sampleDriver [("a", "")]) []
      { name := "a", options := [("mountpoint", "data/a")] } (by decide) (by decide)).1,
   (empty_mountpoint_not_exists (sampleDriver [("a", "")]) []
      { name := "a", options := [("mountpoint", "data/a")] } (by decide) (by decide)).2.2.2.2.1⟩
